import Mathlib

/-!
Verification of the WJQSERVER/httprouter routing core (src/router.go).

The decision logic, allow-header construction, registration validation,
parameter-buffer pool and middleware composition are embedded as executable
Lean definitions translated from src/router.go.  The per-method radix trie
itself (node.getValue, node.findCaseInsensitivePath, CleanPath) is not part
of the provided sources; the dispatch logic only consumes its outputs, so
lookup outcomes appear as explicit inputs, and where a tree probe is needed
it is abstracted by a predicate modelled from the specification.
-/

namespace HttpRouter

/-- A single URL parameter, a key and a value (struct Param in router.go). -/
structure Param where
  key : String
  value : String
deriving Repr, DecidableEq

/-- ByName returns the value of the first Param whose Key equals the given
name, and the empty string when no Param matches (Params.ByName in
router.go, lines 108-115). -/
def ByName : List Param → String → String
  | [], _ => ""
  | p :: ps, name => if p.key == name then p.value else ByName ps name

/-- One bubbling insertion of a string into an already sorted list; mirrors
the inner loop of the in-place insertion sort in Router.allowed
(router.go, lines 908-912): the element moves left past strictly greater
elements only.  Strings are compared lexicographically on their character
sequences, matching the bytewise string comparison of the source
language on the ASCII method tokens involved. -/
def insertSorted (x : String) : List String → List String
  | [] => [x]
  | y :: ys => if x.data < y.data then x :: y :: ys else y :: insertSorted x ys

/-- The insertion sort of Router.allowed: elements are processed left to
right, each inserted into the sorted prefix. -/
def sortStrings (l : List String) : List String :=
  l.foldl (fun acc x => insertSorted x acc) []

/-- Lexicographic non-strict order on strings, via their character
sequences. -/
def strLe (a b : String) : Prop := a.data ≤ b.data

/-- Modelled from the spec: the per-method radix trie and its lookup
algorithm (node.getValue, in the tree source file that is not under src/)
are abstracted by the predicate hasHandle, which tells whether the tree of
a method holds a registered handler at a path (spec section 4.2 lookup
contract).  The remaining fields mirror the Router struct of router.go:
methods is the key set of the map r.trees, globalAllowed the cached
server-wide allow string, and the Booleans the corresponding configuration
fields and the nil-ness of the optional collaborators. -/
structure RouterModel where
  methods : List String
  hasHandle : String → String → Bool
  globalAllowed : String
  redirectTrailingSlash : Bool
  redirectFixedPath : Bool
  handleMethodNotAllowed : Bool
  handleOPTIONS : Bool
  serveUnmatchedAsStatic : Bool
  hasFileSystem : Bool

/-- The methods collected by the loop of Router.allowed for a specific
path: every registered method other than the requested one and OPTIONS
whose tree has a handler at the path (router.go, lines 890-900). -/
def methodsFor (r : RouterModel) (path reqMethod : String) : List String :=
  r.methods.filter (fun m => !(m == reqMethod || m == "OPTIONS") && r.hasHandle m path)

/-- The methods collected by Router.allowed for the server-wide path "*":
every registered method except OPTIONS (router.go, lines 880-887). -/
def methodsStar (r : RouterModel) : List String :=
  r.methods.filter (fun m => !(m == "OPTIONS"))

/-- The OPTIONS token appended to a non-empty allowed list when automatic
OPTIONS handling is enabled (router.go, lines 903-905). -/
def withOptions (handleOPTIONS : Bool) (ms : List String) : List String :=
  if handleOPTIONS then ms ++ ["OPTIONS"] else ms

/-- Final assembly of the Allow header value in Router.allowed: when the
collected list is non-empty, append OPTIONS if enabled, sort, and join
with a comma and space; otherwise the empty string (router.go,
lines 902-916). -/
def buildAllow (handleOPTIONS : Bool) (ms : List String) : String :=
  if 0 < ms.length then
    String.intercalate ", " (sortStrings (withOptions handleOPTIONS ms))
  else ""

/-- Router.allowed (router.go, lines 876-917): for path "*" with empty
request method the server-wide list is recomputed, for path "*" with a
non-empty method the cached globalAllowed is returned, and for a specific
path the trees are probed. -/
def allowed (r : RouterModel) (path reqMethod : String) : String :=
  if path = "*" then
    if reqMethod = "" then buildAllow r.handleOPTIONS (methodsStar r)
    else r.globalAllowed
  else buildAllow r.handleOPTIONS (methodsFor r path reqMethod)

/-- Outcome of root.getValue consumed by the dispatch logic: whether a
handler was found, and the trailing-slash recommendation. -/
structure LookupOutcome where
  handleFound : Bool
  tsr : Bool
deriving Repr, DecidableEq

/-- Outcome of root.findCaseInsensitivePath consumed by the dispatch
logic: the corrected path and whether it was found. -/
structure FixOutcome where
  fixedPath : String
  found : Bool
deriving Repr, DecidableEq

/-- The terminal action produced by one pass of the dispatch decision
logic of ServeHTTP. -/
inductive Action where
  | invokeHandler : Action
  | redirect : String → Nat → Action
  | autoOptions : String → Action
  | methodNotAllowed : String → Action
  | serveStatic : Action
  | notFound : Action
deriving Repr, DecidableEq

/-- Redirect status code selection in ServeHTTP (router.go, lines
980-983): 301 for GET, 308 for every other method. -/
def redirectCode (method : String) : Nat :=
  if method = "GET" then 301 else 308

/-- Target path of the trailing-slash redirect (router.go, lines 988-992):
drop a trailing slash when the path is longer than one byte and ends in
one, otherwise append a slash. -/
def tslRedirectPath (path : String) : String :=
  if 1 < path.length ∧ path.back = '/' then path.dropRight 1 else path ++ "/"

/-- The fallback tail of the dispatch logic (router.go, lines 1036-1073):
static file service when configured, otherwise the not-found response. -/
def fallback (r : RouterModel) : Action :=
  if r.serveUnmatchedAsStatic = true ∧ r.hasFileSystem = true then Action.serveStatic
  else Action.notFound

/-- The automatic OPTIONS / method-not-allowed tail of the dispatch logic
(router.go, lines 1012-1034): an if / else-if pair, each guarded by its
configuration flag and a non-empty allow string, falling through to the
fallback. -/
def afterMatch (r : RouterModel) (method path : String) : Action :=
  if method = "OPTIONS" ∧ r.handleOPTIONS = true then
    if allowed r path "OPTIONS" ≠ "" then Action.autoOptions (allowed r path "OPTIONS")
    else fallback r
  else if r.handleMethodNotAllowed = true then
    if allowed r path method ≠ "" then Action.methodNotAllowed (allowed r path method)
    else fallback r
  else fallback r

/-- The dispatch decision logic of ServeHTTP (router.go, lines 953-1073),
with the lookup outcomes of the absent tree code passed as inputs: exact
match invokes the handler; otherwise, for methods other than CONNECT and
paths other than the root, the trailing-slash and then the fixed-path
redirect are attempted; every remaining case reaches the
OPTIONS / 405 / fallback tail. -/
def dispatch (r : RouterModel) (method path : String)
    (lk : LookupOutcome) (fx : FixOutcome) : Action :=
  if r.methods.contains method = true then
    if lk.handleFound = true then Action.invokeHandler
    else if method ≠ "CONNECT" ∧ path ≠ "/" then
      if lk.tsr = true ∧ r.redirectTrailingSlash = true then
        Action.redirect (tslRedirectPath path) (redirectCode method)
      else if r.redirectFixedPath = true then
        if fx.found = true then Action.redirect fx.fixedPath (redirectCode method)
        else afterMatch r method path
      else afterMatch r method path
    else afterMatch r method path
  else afterMatch r method path

/-- The dispatch decision list as the spec words it (section 4.6): a flat
first-match cascade, evaluated in the order exact match, trailing-slash
redirect, fixed-path redirect, auto-OPTIONS, method not allowed, fallback,
short-circuiting at the first branch whose enabling conditions resolve.
Written from the words of the spec to be compared with dispatch. -/
def dispatchSpecOrder (r : RouterModel) (method path : String)
    (lk : LookupOutcome) (fx : FixOutcome) : Action :=
  if r.methods.contains method = true ∧ lk.handleFound = true then
    Action.invokeHandler
  else if r.methods.contains method = true ∧ method ≠ "CONNECT" ∧ path ≠ "/" ∧
      lk.tsr = true ∧ r.redirectTrailingSlash = true then
    Action.redirect (tslRedirectPath path) (redirectCode method)
  else if r.methods.contains method = true ∧ method ≠ "CONNECT" ∧ path ≠ "/" ∧
      r.redirectFixedPath = true ∧ fx.found = true then
    Action.redirect fx.fixedPath (redirectCode method)
  else if method = "OPTIONS" ∧ r.handleOPTIONS = true ∧ allowed r path "OPTIONS" ≠ "" then
    Action.autoOptions (allowed r path "OPTIONS")
  else if r.handleMethodNotAllowed = true ∧ allowed r path method ≠ "" then
    Action.methodNotAllowed (allowed r path method)
  else fallback r

/-- Registration step of Router.Handle restricted to the state the
server-wide allow cache depends on (router.go, lines 732-744): when the
method has no tree yet, the tree map gains the method first and the cached
globalAllowed is then recomputed by allowed with path "*" and an empty
method; finally the route is added to the tree, here reflected in the
abstract hasHandle predicate. -/
def handleReg (r : RouterModel) (method path : String) : RouterModel :=
  let r1 :=
    if r.methods.contains method then r
    else
      let rAdded := { r with methods := r.methods ++ [method] }
      { rAdded with globalAllowed := allowed rAdded "*" "" }
  { r1 with hasHandle := fun m p => (m == method && p == path) || r1.hasHandle m p }

/-- The registration-time validation of Router.Handle (router.go, lines
717-725): the three panics, in source order, as an optional message. -/
def handleValidationError (method path : String) (handleIsNil : Bool) : Option String :=
  if method = "" then some "method must not be empty"
  else if path.length < 1 ∨ path.front ≠ '/' then some "path must begin with a slash"
  else if handleIsNil = true then some "handle must not be nil"
  else none

/-- A parameter buffer as seen by the pool: its slice length and its
underlying capacity. -/
structure Buffer where
  length : Nat
  cap : Nat
deriving Repr, DecidableEq

/-- State of the parameter pool of the Router: the running maxParams, the
flag telling whether paramsPool.New has been installed, and the
capacities of the pooled free buffers, most recently released first. -/
structure PoolState where
  maxParams : Nat
  newSet : Bool
  free : List Nat
deriving Repr, DecidableEq

/-- Router.getParams (router.go, lines 329-333): take a pooled buffer when
one is free, otherwise call the New function, which allocates an empty
slice whose capacity is the maxParams read at call time; the returned
slice is truncated to length zero.  When New was never installed the Get
result is nil and the dereference would fault, represented by none. -/
def getParams (s : PoolState) : Option (Buffer × PoolState) :=
  match s.free with
  | c :: rest => some (⟨0, c⟩, { s with free := rest })
  | [] => if s.newSet then some (⟨0, s.maxParams⟩, s) else none

/-- Router.putParams (router.go, lines 335-339): return the buffer to the
pool. -/
def putParams (s : PoolState) (b : Buffer) : PoolState :=
  { s with free := b.cap :: s.free }

/-- The pool-related tail of Router.Handle (router.go, lines 746-757):
raise maxParams to the parameter count of the new route when larger, and
install the pool New function once maxParams is positive. -/
def registerRoute (s : PoolState) (paramsCount : Nat) : PoolState :=
  let m := if s.maxParams < paramsCount then paramsCount else s.maxParams
  { s with maxParams := m, newSet := s.newSet || decide (0 < m) }

/-- Router.applyMiddleware (router.go, lines 921-927): walk the
middleware list from the last added to the first, wrapping the current
handler at each step; handlers are kept abstract. -/
def applyMiddleware {α : Type} (mws : List (α → α)) (handler : α) : α :=
  mws.reverse.foldl (fun current m => m current) handler

/-- What Router.recv can do once a panic value has been recovered. -/
inductive RecvOutcome where
  | recoveryHandlerCalled : Nat → RecvOutcome
  | errorHandlerCalled : Nat → RecvOutcome
  | defaultErrorCalled : Nat → RecvOutcome
  | nothingWritten : RecvOutcome
  | propagated : RecvOutcome
deriving Repr, DecidableEq

/-- Configuration consulted by Router.recv: whether a RecoveryHandler and
an errorHandler are set, and whether the request context is already
done (client disconnected). -/
structure RecvConfig where
  hasRecoveryHandler : Bool
  hasErrorHandler : Bool
  ctxDone : Bool
deriving Repr, DecidableEq

/-- Router.recv (router.go, lines 827-853): nothing happens without a
recovered value; with one, when the request context is done the recovery
handler is called if set and otherwise nothing is written; when the
context is live the recovery handler takes precedence, then the
configured errorHandler with status 500, then the default error handler
with status 500.  Panic values are abstracted as naturals. -/
def recv (c : RecvConfig) (rcv : Option Nat) : RecvOutcome :=
  match rcv with
  | none => RecvOutcome.nothingWritten
  | some v =>
    if c.ctxDone = true then
      if c.hasRecoveryHandler = true then RecvOutcome.recoveryHandlerCalled v
      else RecvOutcome.nothingWritten
    else
      if c.hasRecoveryHandler = true then RecvOutcome.recoveryHandlerCalled v
      else if c.hasErrorHandler = true then RecvOutcome.errorHandlerCalled 500
      else RecvOutcome.defaultErrorCalled 500

/-- A router in the default New configuration with the given method set
and abstract tree contents, used for concrete instances. -/
def mkRouter (ms : List String) (h : String → String → Bool) : RouterModel :=
  { methods := ms
    hasHandle := h
    globalAllowed := ""
    redirectTrailingSlash := true
    redirectFixedPath := true
    handleMethodNotAllowed := true
    handleOPTIONS := true
    serveUnmatchedAsStatic := false
    hasFileSystem := false }

/-- Concrete router with one HEAD tree and no matching route, used at the
redirect branches. -/
def headRouter : RouterModel := mkRouter ["HEAD"] (fun _ _ => false)

/-- Concrete router with only GET /x registered, the example of the
allow-header claim. -/
def getXRouter : RouterModel := mkRouter ["GET"] (fun m p => m == "GET" && p == "/x")

/-- Concrete router owning a CONNECT tree with no matching route, used at
the redirect-suppression claim. -/
def connectRouter : RouterModel := mkRouter ["CONNECT"] (fun _ _ => false)

/-- A sequence of Handle registrations folded over a starting router. -/
def regsFold (regs : List (String × String)) (r0 : RouterModel) : RouterModel :=
  regs.foldl (fun r q => handleReg r q.1 q.2) r0

/-- Pool history refuting the growth clause of the pool claim: register a
one-parameter route, issue and release a buffer, then register a
two-parameter route. -/
def poolScenario : PoolState :=
  registerRoute (putParams (registerRoute ⟨0, false, []⟩ 1) ⟨0, 1⟩) 2

theorem mem_insertSorted (a x : String) (l : List String) :
    a ∈ insertSorted x l ↔ a = x ∨ a ∈ l := by
  induction l with
  | nil => simp [insertSorted]
  | cons y ys ih =>
    by_cases h : x.data < y.data
    · simp [insertSorted, h]
    · simp only [insertSorted, if_neg h, List.mem_cons, ih]
      tauto

theorem sorted_insertSorted (x : String) (l : List String)
    (h : l.Sorted strLe) : (insertSorted x l).Sorted strLe := by
  induction l with
  | nil => simp [insertSorted, strLe]
  | cons y ys ih =>
    rw [List.sorted_cons] at h
    by_cases hxy : x.data < y.data
    · rw [insertSorted, if_pos hxy, List.sorted_cons]
      refine ⟨?_, List.sorted_cons.mpr h⟩
      intro b hb
      rcases List.mem_cons.mp hb with hb | hb
      · exact hb ▸ le_of_lt hxy
      · exact le_trans (le_of_lt hxy) (h.1 b hb)
    · rw [insertSorted, if_neg hxy, List.sorted_cons]
      refine ⟨?_, ih h.2⟩
      intro b hb
      rcases (mem_insertSorted b x ys).mp hb with hb | hb
      · exact hb ▸ le_of_not_lt hxy
      · exact h.1 b hb

theorem sorted_foldl_insert (l : List String) :
    ∀ acc : List String, acc.Sorted strLe →
      (l.foldl (fun a x => insertSorted x a) acc).Sorted strLe := by
  induction l with
  | nil => intro acc h; simpa using h
  | cons x xs ih => intro acc h; exact ih _ (sorted_insertSorted x acc h)

theorem sorted_sortStrings (l : List String) : (sortStrings l).Sorted strLe :=
  sorted_foldl_insert l [] (by simp)

theorem mem_foldl_insert (l : List String) :
    ∀ (acc : List String) (a : String),
      (a ∈ l.foldl (fun ac x => insertSorted x ac) acc) ↔ a ∈ l ∨ a ∈ acc := by
  induction l with
  | nil => intro acc a; simp
  | cons x xs ih =>
    intro acc a
    rw [List.foldl_cons, ih]
    rw [mem_insertSorted]
    simp only [List.mem_cons]
    tauto

theorem mem_sortStrings (a : String) (l : List String) : a ∈ sortStrings l ↔ a ∈ l := by
  rw [sortStrings, mem_foldl_insert]
  simp

theorem afterMatch_ne_redirect (r : RouterModel) (m p s : String) (c : Nat) :
    afterMatch r m p ≠ Action.redirect s c := by
  unfold afterMatch fallback
  split_ifs <;> simp

/-- afterMatch rewritten as the flat two-branch cascade used by the
spec-order presentation of the dispatch logic. -/
theorem afterMatch_eq_tail (r : RouterModel) (m p : String) :
    afterMatch r m p =
      (if m = "OPTIONS" ∧ r.handleOPTIONS = true ∧ allowed r p "OPTIONS" ≠ "" then
        Action.autoOptions (allowed r p "OPTIONS")
      else if r.handleMethodNotAllowed = true ∧ allowed r p m ≠ "" then
        Action.methodNotAllowed (allowed r p m)
      else fallback r) := by
  unfold afterMatch
  split_ifs <;> first | rfl | tauto | simp_all

set_option maxHeartbeats 2000000 in
/-- C2: for every dispatched request the decision branches are evaluated
in the fixed order exact match, trailing-slash redirect, fixed-path
redirect, auto-OPTIONS, method not allowed, fallback, short-circuiting at
the first resolving branch: the dispatch function of ServeHTTP equals the
flat first-match cascade written from the spec, and being a total
function into Action it produces exactly one terminal action per
request. -/
theorem c2_dispatch_follows_spec_order :
    ∀ (r : RouterModel) (m p : String) (lk : LookupOutcome) (fx : FixOutcome),
      dispatch r m p lk fx = dispatchSpecOrder r m p lk fx := by
  intro r m p lk fx
  unfold dispatch dispatchSpecOrder
  simp only [afterMatch_eq_tail]
  split_ifs <;> first | rfl | tauto

/-- C8: for a CONNECT request or the root path, a missed exact lookup
never produces a trailing-slash or fixed-path redirect even when the
lookup recommends one and both redirect policies are enabled; dispatch
falls through directly to the auto-OPTIONS / 405 / fallback tail. -/
theorem c8_connect_root_never_redirect :
    ∀ (r : RouterModel) (m p : String) (lk : LookupOutcome) (fx : FixOutcome),
      (m = "CONNECT" ∨ p = "/") → lk.handleFound = false →
      dispatch r m p lk fx = afterMatch r m p ∧
        ∀ (s : String) (c : Nat), dispatch r m p lk fx ≠ Action.redirect s c := by
  intro r m p lk fx hmp hf
  have hd : dispatch r m p lk fx = afterMatch r m p := by
    unfold dispatch
    split_ifs <;> first | rfl | simp_all
  exact ⟨hd, fun s c => hd ▸ afterMatch_ne_redirect r m p s c⟩

theorem c8_witness :
    dispatch connectRouter "CONNECT" "/x/" ⟨false, true⟩ ⟨"", false⟩
        = afterMatch connectRouter "CONNECT" "/x/" ∧
      dispatch connectRouter "CONNECT" "/x/" ⟨false, true⟩ ⟨"", false⟩ ≠ Action.redirect "/x" 308 :=
  ⟨(c8_connect_root_never_redirect connectRouter "CONNECT" "/x/" ⟨false, true⟩ ⟨"", false⟩
      (Or.inl rfl) rfl).1,
    (c8_connect_root_never_redirect connectRouter "CONNECT" "/x/" ⟨false, true⟩ ⟨"", false⟩
      (Or.inl rfl) rfl).2 "/x" 308⟩

/-- C1 as stated is false: HEAD is a read method of the GET/HEAD class,
yet a trailing-slash redirect of a HEAD request is emitted with status
308, not 301 (router.go only gives 301 to GET). -/
theorem c1_counterexample :
    dispatch headRouter "HEAD" "/x/" ⟨false, true⟩ ⟨"", false⟩ = Action.redirect "/x" 308 ∧
      (308 : Nat) ≠ 301 := by
  constructor
  · decide
  · decide

/-- C1 amended: for every request that triggers a trailing-slash or
fixed-path redirect, the response status is 301 when the request method
is exactly GET and 308 for every other method, HEAD included. -/
theorem c1_amended_redirect_codes :
    ∀ (r : RouterModel) (m p : String) (lk : LookupOutcome) (fx : FixOutcome)
      (s : String) (c : Nat),
      dispatch r m p lk fx = Action.redirect s c →
      c = redirectCode m ∧ (m = "GET" → c = 301) ∧ (m ≠ "GET" → c = 308) := by
  intro r m p lk fx s c h
  have hc : c = redirectCode m := by
    unfold dispatch at h
    split_ifs at h <;>
      first
        | exact absurd h (afterMatch_ne_redirect r m p s c)
        | (cases h; rfl)
  refine ⟨hc, ?_, ?_⟩
  · intro hm
    rw [hc, redirectCode, if_pos hm]
  · intro hm
    rw [hc, redirectCode, if_neg hm]

theorem c1_witness :
    dispatch headRouter "HEAD" "/y" ⟨false, true⟩ ⟨"", false⟩ = Action.redirect "/y/" 308 ∧
      (308 : Nat) = 308 :=
  ⟨by decide,
    (c1_amended_redirect_codes headRouter "HEAD" "/y" ⟨false, true⟩ ⟨"", false⟩
        "/y/" 308 (by decide)).2.2 (by decide)⟩

/-- C9: ByName returns the value of the first pair, in left-to-right
order, whose key equals the given name (the first match that List.find?
denotes), and the empty string when no key matches; positional retrieval
indexes the same ordered list. -/
theorem c9_byname_first_match :
    (∀ (ps : List Param) (n : String),
        ByName ps n = ((ps.find? (fun p => p.key == n)).map Param.value).getD "") ∧
      ∀ (ps : List Param) (n : String), (∀ p ∈ ps, p.key ≠ n) → ByName ps n = "" := by
  have key : ∀ (ps : List Param) (n : String),
      ByName ps n = ((ps.find? (fun p => p.key == n)).map Param.value).getD "" := by
    intro ps n
    induction ps with
    | nil => simp [ByName]
    | cons p ps ih =>
      cases hb : p.key == n <;>
        simp [ByName, List.find?, hb, ih]
  refine ⟨key, ?_⟩
  intro ps n h
  rw [key]
  have hnone : ps.find? (fun p => p.key == n) = none := by
    rw [List.find?_eq_none]
    intro p hp
    simpa using h p hp
  rw [hnone]
  rfl

theorem c9_witness :
    ByName [⟨"a", "1"⟩, ⟨"b", "2"⟩] "c" = "" :=
  c9_byname_first_match.2 [⟨"a", "1"⟩, ⟨"b", "2"⟩] "c" (by decide)

/-- C10: the composed handler built from global middlewares m1 ... mk
added in that order is m1 applied to m2 applied to ... mk applied to the
core handler: applyMiddleware equals the right fold, so middlewares wrap
the whole decision logic and run outermost-first in registration order. -/
theorem c10_middleware_outermost_first :
    ∀ {α : Type} (mws : List (α → α)) (h : α),
      applyMiddleware mws h = mws.foldr (fun m acc => m acc) h ∧
        ∀ m : α → α, applyMiddleware (m :: mws) h = m (applyMiddleware mws h) := by
  intro α mws h
  have key : ∀ (l : List (α → α)) (x : α),
      applyMiddleware l x = l.foldr (fun m acc => m acc) x := by
    intro l x
    unfold applyMiddleware
    rw [List.foldl_reverse]
  refine ⟨key mws h, ?_⟩
  intro m
  rw [key, key, List.foldr_cons]

theorem string_length_eq_zero_iff (p : String) : p.length = 0 ↔ p = "" := by
  constructor
  · intro h
    cases p with
    | mk data =>
      cases data with
      | nil => rfl
      | cons c cs =>
        simp [String.length] at h
  · intro h
    subst h
    rfl

/-- C5: registration validation panics exactly when the method is empty,
the pattern is empty or does not begin with a slash, or the handler is
nil; under the negation of all three preconditions no panic fires. -/
theorem c5_registration_validation :
    ∀ (m p : String) (hnil : Bool),
      handleValidationError m p hnil = none ↔
        (m ≠ "" ∧ p ≠ "" ∧ p.front = '/' ∧ hnil = false) := by
  intro m p hnil
  unfold handleValidationError
  split_ifs with h1 h2 h3 <;>
    simp_all [string_length_eq_zero_iff] <;> tauto

/-- C3: for a specific path with at least one other method registered,
the Allow string of Router.allowed is the collected method tokens with
OPTIONS appended when auto-OPTIONS handling is enabled, sorted
lexicographically ascending and joined with a comma and space; the
collected tokens never include the requested method; and dispatching
DELETE /x against a router holding only GET /x with both policies enabled
yields the 405 action carrying Allow GET, OPTIONS. -/
theorem c3_allow_header_construction :
    (∀ (r : RouterModel) (path reqMethod : String),
        path ≠ "*" →
        methodsFor r path reqMethod ≠ [] →
        allowed r path reqMethod =
            String.intercalate ", "
              (sortStrings (withOptions r.handleOPTIONS (methodsFor r path reqMethod))) ∧
          (sortStrings (withOptions r.handleOPTIONS (methodsFor r path reqMethod))).Sorted strLe ∧
          (r.handleOPTIONS = true →
            "OPTIONS" ∈ sortStrings (withOptions r.handleOPTIONS (methodsFor r path reqMethod))) ∧
          reqMethod ∉ methodsFor r path reqMethod) ∧
      dispatch getXRouter "DELETE" "/x" ⟨false, false⟩ ⟨"", false⟩
        = Action.methodNotAllowed "GET, OPTIONS" := by
  constructor
  · intro r path reqMethod hstar hne
    refine ⟨?_, sorted_sortStrings _, ?_, ?_⟩
    · unfold allowed
      rw [if_neg hstar]
      unfold buildAllow
      rw [if_pos (List.length_pos.mpr hne)]
    · intro ho
      rw [mem_sortStrings]
      unfold withOptions
      rw [if_pos ho]
      simp
    · intro hmem
      simp [methodsFor, List.mem_filter] at hmem
  · decide

theorem c3_witness :
    allowed getXRouter "/x" "DELETE" =
        String.intercalate ", "
          (sortStrings (withOptions getXRouter.handleOPTIONS (methodsFor getXRouter "/x" "DELETE"))) ∧
      "DELETE" ∉ methodsFor getXRouter "/x" "DELETE" := by
  have h := (c3_allow_header_construction.1 getXRouter "/x" "DELETE" (by decide) (by decide))
  exact ⟨h.1, h.2.2.2⟩

/-- C4 as stated is false: when a panic is recovered while the request
context is already done (client disconnected) and no recovery
collaborator is configured, Router.recv returns without producing any
response, so no default 500 response is produced. -/
theorem c4_counterexample :
    recv ⟨false, true, true⟩ (some 7) = RecvOutcome.nothingWritten ∧
      recv ⟨false, true, true⟩ (some 7) ≠ RecvOutcome.errorHandlerCalled 500 ∧
      recv ⟨false, true, true⟩ (some 7) ≠ RecvOutcome.defaultErrorCalled 500 ∧
      recv ⟨false, true, true⟩ (some 7) ≠ RecvOutcome.recoveryHandlerCalled 7 := by
  decide

/-- C4 amended: a recovered panic never propagates past the router
boundary; the configured recovery collaborator, when set, is always
invoked with the recovered value; without one, a 500 response is
produced through the configured or the default error handler provided
the request context is still live, while nothing is written when the
client has already disconnected. -/
theorem c4_amended_recovery :
    ∀ (c : RecvConfig) (v : Nat),
      recv c (some v) ≠ RecvOutcome.propagated ∧
        (c.hasRecoveryHandler = true → recv c (some v) = RecvOutcome.recoveryHandlerCalled v) ∧
        (c.hasRecoveryHandler = false → c.ctxDone = false → c.hasErrorHandler = true →
          recv c (some v) = RecvOutcome.errorHandlerCalled 500) ∧
        (c.hasRecoveryHandler = false → c.ctxDone = false → c.hasErrorHandler = false →
          recv c (some v) = RecvOutcome.defaultErrorCalled 500) ∧
        (c.hasRecoveryHandler = false → c.ctxDone = true →
          recv c (some v) = RecvOutcome.nothingWritten) := by
  intro c v
  obtain ⟨hr, he, hd⟩ := c
  cases hr <;> cases he <;> cases hd <;> simp [recv]

theorem c4_witness :
    recv ⟨true, true, false⟩ (some 3) ≠ RecvOutcome.propagated ∧
      recv ⟨true, true, false⟩ (some 3) = RecvOutcome.recoveryHandlerCalled 3 :=
  ⟨(c4_amended_recovery ⟨true, true, false⟩ 3).1,
    (c4_amended_recovery ⟨true, true, false⟩ 3).2.1 rfl⟩

/-- C6 as stated is false: a buffer released to the pool before the
maximum parameter count grew keeps its old capacity, so after
registering a one-parameter route, releasing a capacity-one buffer and
registering a two-parameter route, acquire returns a buffer of capacity
one, below the new maximum of two. -/
theorem c6_counterexample :
    poolScenario.maxParams = 2 ∧
      getParams poolScenario = some (⟨0, 1⟩, ⟨2, true, []⟩) ∧
      (1 : Nat) < 2 := by
  decide

theorem le_registerRoute_self (s : PoolState) (c : Nat) :
    c ≤ (registerRoute s c).maxParams := by
  unfold registerRoute
  dsimp
  split_ifs with h
  · exact le_refl c
  · exact le_of_not_lt h

theorem registerRoute_mono (s : PoolState) (c : Nat) :
    s.maxParams ≤ (registerRoute s c).maxParams := by
  unfold registerRoute
  dsimp
  split_ifs with h
  · exact le_of_lt h
  · exact le_refl _

theorem foldl_registerRoute_mono (counts : List Nat) :
    ∀ s : PoolState, s.maxParams ≤ (counts.foldl registerRoute s).maxParams := by
  induction counts with
  | nil => intro s; simp
  | cons c cs ih =>
    intro s
    rw [List.foldl_cons]
    exact le_trans (registerRoute_mono s c) (ih (registerRoute s c))

/-- C6 amended: every buffer returned by getParams has length zero; a
buffer freshly allocated by the pool New function has capacity equal to
the maxParams current at allocation time, and maxParams dominates the
parameter count of every route registered so far; a recycled buffer only
keeps the capacity it was released with, which can be below a maximum
that grew after its allocation. -/
theorem c6_amended_pool :
    (∀ (s : PoolState) (b : Buffer) (s' : PoolState),
        getParams s = some (b, s') → b.length = 0) ∧
      (∀ (s : PoolState) (b : Buffer) (s' : PoolState),
        s.newSet = true → s.free = [] → getParams s = some (b, s') → b.cap = s.maxParams) ∧
      ∀ (s : PoolState) (counts : List Nat), ∀ c ∈ counts,
        c ≤ (counts.foldl registerRoute s).maxParams := by
  refine ⟨?_, ?_, ?_⟩
  · intro s b s' h
    cases hf : s.free with
    | cons c rest =>
      simp [getParams, hf] at h
      rw [← h.1]
    | nil =>
      simp [getParams, hf] at h
      rw [← h.2.1]
  · intro s b s' hn hf h
    simp [getParams, hf, hn] at h
    rw [← h.1]
  · intro s counts
    induction counts generalizing s with
    | nil => intro c hc; simp at hc
    | cons a as ih =>
      intro c hc
      rw [List.foldl_cons]
      rcases List.mem_cons.mp hc with hc | hc
      · subst hc
        exact le_trans (le_registerRoute_self s c) (foldl_registerRoute_mono as (registerRoute s c))
      · exact ih (registerRoute s a) c hc

theorem c6_witness :
    (⟨0, 1⟩ : Buffer).length = 0 ∧
      (⟨0, 1⟩ : Buffer).cap = (⟨1, true, []⟩ : PoolState).maxParams :=
  ⟨c6_amended_pool.1 ⟨1, true, []⟩ ⟨0, 1⟩ ⟨1, true, []⟩ (by decide),
    c6_amended_pool.2.1 ⟨1, true, []⟩ ⟨0, 1⟩ ⟨1, true, []⟩ rfl rfl (by decide)⟩

theorem handleReg_globalAllowed_inv (r : RouterModel) (m p : String)
    (h : r.globalAllowed = buildAllow r.handleOPTIONS (methodsStar r)) :
    (handleReg r m p).globalAllowed
      = buildAllow (handleReg r m p).handleOPTIONS (methodsStar (handleReg r m p)) := by
  unfold handleReg
  by_cases hc : r.methods.contains m = true
  · simp only [hc, if_pos]
    simpa [methodsStar] using h
  · rw [if_neg (by simpa using hc)]
    simp [allowed, methodsStar]

/-- C7: the cached server-wide allowed-methods string always equals the
Allow string computed from the current method set and OPTIONS flag: it is
recomputed exactly at the creation of a new method tree, registrations on
an existing method leave it unchanged, and every allowed query for path *
with a non-empty request method returns the cached string unchanged. -/
theorem c7_global_allowed_cache :
    (∀ (regs : List (String × String)) (r0 : RouterModel),
        r0.globalAllowed = buildAllow r0.handleOPTIONS (methodsStar r0) →
        (regsFold regs r0).globalAllowed
          = buildAllow (regsFold regs r0).handleOPTIONS (methodsStar (regsFold regs r0))) ∧
      (∀ (r : RouterModel) (m p : String), r.methods.contains m = true →
        (handleReg r m p).globalAllowed = r.globalAllowed) ∧
      ∀ (r : RouterModel) (m : String), m ≠ "" → allowed r "*" m = r.globalAllowed := by
  refine ⟨?_, ?_, ?_⟩
  · intro regs
    induction regs with
    | nil => intro r0 h; simpa [regsFold] using h
    | cons q qs ih =>
      intro r0 h
      rw [regsFold, List.foldl_cons]
      exact ih _ (handleReg_globalAllowed_inv r0 q.1 q.2 h)
  · intro r m p hc
    unfold handleReg
    simp only [hc, if_pos]
  · intro r m hm
    unfold allowed
    rw [if_pos rfl, if_neg hm]

theorem c7_witness :
    (regsFold [("GET", "/x"), ("POST", "/y"), ("GET", "/z")] (mkRouter [] (fun _ _ => false))).globalAllowed
      = buildAllow
          (regsFold [("GET", "/x"), ("POST", "/y"), ("GET", "/z")] (mkRouter [] (fun _ _ => false))).handleOPTIONS
          (methodsStar (regsFold [("GET", "/x"), ("POST", "/y"), ("GET", "/z")] (mkRouter [] (fun _ _ => false)))) :=
  c7_global_allowed_cache.1 [("GET", "/x"), ("POST", "/y"), ("GET", "/z")]
    (mkRouter [] (fun _ _ => false)) (by decide)

end HttpRouter
